import Mathlib

/-!
GameView of `emulator/gameview.go`

A shallow embedding of `GameView` (package `emulator`) and proofs about it.

Conventions of the embedding

* A Go `int` received from the input channel is an `Int`; `&` is `Int.land`
  and `>>` is the arithmetic `Int.shiftRight` (neither can overflow).
* The array `[NumKeys * 2]bool` is a `List Bool`; theorems that index it carry
  the length `16` of the Go type as a hypothesis.
* A value of type `func() error` is an `Option Nat`: `none` is the nil
  function, `some n` a function value identified by the number `n`.
* A channel is an `Option Nat`: `none` is the nil channel.
* `float64` is any type `F` with a decidable `<`, a `0` and a `1`; the code
  only compares `dt` with `1` and replaces it by `0`, so no property of the
  order is used.
* `nes.Console` and the helpers `savePath`, `sramPath`, `readSRAM`,
  `writeSRAM` live outside `gameview.go`; they are the fields of `Env`.
  The methods of the console act on `Console M`, whose `Cartridge` is
  concrete (the view reads `Battery` and assigns `SRAM`) and whose remaining
  state is the parameter `M`. The audio and controller setters act on `M`
  only; `LoadState`, `Reset` and `StepSeconds` may change the whole console;
  `SaveState` and `writeSRAM` may change the disk.
* Every call that leaves `gameview.go` is appended to `World.calls`, and the
  files on disk are `World.disk`.
* The statement `go f()` completes in the calling goroutine for every `f`
  of type `func() error`, the nil function included: the call itself happens
  in the new goroutine. It is recorded as `Call.go n` for the function `n`
  and as `Call.goNil` for the nil function, whose call panics in the new
  goroutine and thereby ends the process; the caller goes on meanwhile.
* A send on the nil channel blocks for ever: `Update` returns
  `Except.error w` when it is blocked in its send, `w` being the world at that
  moment, and `Except.ok w` when it has returned. A send on a channel that is
  not nil is taken to complete (a receiver is there).
-/

namespace emulator

/-- Number of keys of one controller: `const NumKeys = 8`. -/
def NumKeys : Nat := 8

/-- Audio sample rate: `SampleRate = 16000`. -/
def SampleRate : Nat := 16000

/-- A channel value; `none` is the nil channel. -/
abbrev Chan := Option Nat

/-- The struct `job`: a path and the function to launch afterwards. -/
structure job where
  path : String
  extraFunc : Option Nat
deriving DecidableEq, Repr

/-- The fields of `nes.Cartridge` that the view uses. -/
structure Cartridge where
  Battery : Nat
  SRAM : List Nat
deriving DecidableEq, Repr

/-- The console: its cartridge, and the remaining machine state `M`. -/
structure Console (M : Type) where
  Cartridge : Cartridge
  core : M
deriving DecidableEq, Repr

/-- The struct `GameView`. -/
structure GameView (M : Type) where
  console : Console M
  title : String
  hash : String
  keyPressed : List Bool
  savingJob : Option job
  loadingJob : Option job
  imageChannel : Chan
  audioChannel : Chan
  inputChannel : Chan
deriving DecidableEq, Repr

/-- One call that leaves `gameview.go`, with the result where the callee
returns one (`ok` stands for `err == nil`). -/
inductive Call (F Img : Type) where
  | SetAudioSampleRate (rate : Nat)
  | SetAudioChannel (ch : Chan)
  | LoadState (path : String) (ok : Bool)
  | SaveState (path : String) (ok : Bool)
  | Reset
  | StepSeconds (dt : F)
  | SetButtons1 (buttons : List Bool)
  | SetButtons2 (buttons : List Bool)
  | readSRAM (path : String) (ok : Bool)
  | writeSRAM (path : String) (sram : List Nat) (ok : Bool)
  | go (f : Nat)
  | goNil
  | send (ch : Chan) (img : Img)
deriving DecidableEq, Repr

/-- The code outside `gameview.go` that the view calls. -/
structure Env (M FS F Img : Type) where
  savePath : String → String
  sramPath : String → String
  readSRAM : FS → String → Option (List Nat)
  writeSRAM : FS → String → List Nat → FS × Bool
  SetAudioSampleRate : M → Nat → M
  SetAudioChannel : M → Chan → M
  SetButtons1 : M → List Bool → M
  SetButtons2 : M → List Bool → M
  LoadState : Console M → FS → String → Console M × Bool
  SaveState : Console M → FS → String → FS × Bool
  Reset : Console M → Console M
  StepSeconds : Console M → F → Console M
  Buffer : Console M → Img

/-- The view, the files on disk and the calls made so far. -/
structure World (M FS F Img : Type) where
  view : GameView M
  disk : FS
  calls : List (Call F Img)

section code

variable {M FS F Img : Type}

/-- The constructor `NewGameView`; the listener it starts is
`ListenToInputChannel`. -/
def NewGameView (console : Console M) (title hash : String)
    (imageChannel audioChannel inputChannel : Chan) : GameView M :=
  { console := console
    title := title
    hash := hash
    keyPressed := List.replicate (NumKeys * 2) false
    savingJob := none
    loadingJob := none
    imageChannel := imageChannel
    audioChannel := audioChannel
    inputChannel := inputChannel }

/-- The body of the inner loop of `ListenToInputChannel` at index `i`, on the
pair of `view.keyPressed` and `keysInBinary`. -/
def keyStep (st : List Bool × Int) (i : Nat) : List Bool × Int :=
  let b := (Int.land st.2 1 == 1)
  (st.1.set i ((st.1.getD i false && b) || b), Int.shiftRight st.2 1)

/-- The inner loop `for i := 0; i < NumKeys*2; i++` on one received value. -/
def decodeKeys (keyPressed : List Bool) (keysInBinary : Int) : List Bool :=
  ((List.range (NumKeys * 2)).foldl keyStep (keyPressed, keysInBinary)).1

/-- The listener `ListenToInputChannel` on the values `inputs` received from
`view.inputChannel`, in order. -/
def ListenToInputChannel (w : World M FS F Img) (inputs : List Int) : World M FS F Img :=
  inputs.foldl
    (fun w keysInBinary =>
      { w with view := { w.view with keyPressed := decodeKeys w.view.keyPressed keysInBinary } })
    w

/-- The method `Enter`. -/
def Enter (E : Env M FS F Img) (w : World M FS F Img) : World M FS F Img :=
  let view := w.view
  let c1 : Console M :=
    { view.console with core := E.SetAudioSampleRate view.console.core SampleRate }
  let c2 : Console M := { c1 with core := E.SetAudioChannel c1.core view.audioChannel }
  let r := E.LoadState c2 w.disk (E.savePath view.hash)
  let calls := w.calls ++
    [Call.SetAudioSampleRate SampleRate, Call.SetAudioChannel view.audioChannel,
     Call.LoadState (E.savePath view.hash) r.2]
  if r.2 then
    { w with view := { view with console := r.1 }, calls := calls }
  else
    let c3 := E.Reset r.1
    let calls := calls ++ [Call.Reset]
    let cartridge := c3.Cartridge
    if cartridge.Battery != 0 then
      match E.readSRAM w.disk (E.sramPath view.hash) with
      | some sram =>
        { w with
          view := { view with console := { c3 with Cartridge := { cartridge with SRAM := sram } } }
          calls := calls ++ [Call.readSRAM (E.sramPath view.hash) true] }
      | none =>
        { w with
          view := { view with console := c3 }
          calls := calls ++ [Call.readSRAM (E.sramPath view.hash) false] }
    else
      { w with view := { view with console := c3 }, calls := calls }

/-- The method `Exit`. -/
def Exit (E : Env M FS F Img) (w : World M FS F Img) : World M FS F Img :=
  let view := w.view
  let c1 : Console M := { view.console with core := E.SetAudioChannel view.console.core none }
  let c2 : Console M := { c1 with core := E.SetAudioSampleRate c1.core 0 }
  let calls := w.calls ++ [Call.SetAudioChannel none, Call.SetAudioSampleRate 0]
  let cartridge := c2.Cartridge
  if cartridge.Battery != 0 then
    let r := E.writeSRAM w.disk (E.sramPath view.hash) cartridge.SRAM
    { view := { view with console := c2 }
      disk := r.1
      calls := calls ++ [Call.writeSRAM (E.sramPath view.hash) cartridge.SRAM r.2] }
  else
    { w with view := { view with console := c2 }, calls := calls }

/-- The method `Save`: the argument `hash` is not used by the body. -/
def Save (E : Env M FS F Img) (w : World M FS F Img) (hash : String)
    (extraSaveFunc : Option Nat) : World M FS F Img :=
  { w with
    view := { w.view with
      savingJob := some { path := E.savePath w.view.hash, extraFunc := extraSaveFunc } } }

/-- The method `Load`: the argument `path` is not used by the body. -/
def Load (E : Env M FS F Img) (w : World M FS F Img) (path : String)
    (extraLoadFunc : Option Nat) : World M FS F Img :=
  { w with
    view := { w.view with
      loadingJob := some { path := E.savePath w.view.hash, extraFunc := extraLoadFunc } } }

/-- The statement `go f()`: a goroutine is started for `f` and the caller
goes on, also when `f` is nil. -/
def goStmt (f : Option Nat) (w : World M FS F Img) : World M FS F Img :=
  match f with
  | none => { w with calls := w.calls ++ [Call.goNil] }
  | some g => { w with calls := w.calls ++ [Call.go g] }

/-- The first `if` of `UpdateEvents`: the pending saving job. -/
def runSavingJob (E : Env M FS F Img) (w : World M FS F Img) : World M FS F Img :=
  match w.view.savingJob with
  | some j =>
    let r := E.SaveState w.view.console w.disk j.path
    let w1 : World M FS F Img :=
      { w with disk := r.1, calls := w.calls ++ [Call.SaveState j.path r.2] }
    let w2 := goStmt j.extraFunc w1
    { w2 with view := { w2.view with savingJob := none } }
  | none => w

/-- The second `if` of `UpdateEvents`: the pending loading job. -/
def runLoadingJob (E : Env M FS F Img) (w : World M FS F Img) : World M FS F Img :=
  match w.view.loadingJob with
  | some j =>
    let r := E.LoadState w.view.console w.disk j.path
    let w1 : World M FS F Img :=
      { w with
        view := { w.view with console := r.1 }
        calls := w.calls ++ [Call.LoadState j.path r.2] }
    let w2 := goStmt j.extraFunc w1
    { w2 with view := { w2.view with loadingJob := none } }
  | none => w

/-- The method `UpdateEvents` (its `log.Println` writes to the process log
only and is left out). -/
def UpdateEvents (E : Env M FS F Img) (w : World M FS F Img) : World M FS F Img :=
  let w1 := runSavingJob E w
  runLoadingJob E w1

/-- The builtin `copy(dst, src)` of Go on slices of booleans: the first
`min (len dst) (len src)` elements of `dst` are replaced by those of `src`. -/
def copy (dst src : List Bool) : List Bool :=
  src.take (min dst.length src.length) ++ dst.drop (min dst.length src.length)

/-- The method `updateControllers`. -/
def updateControllers (E : Env M FS F Img) (w : World M FS F Img) : World M FS F Img :=
  let player1Keys := copy (List.replicate 8 false) (w.view.keyPressed.take 8)
  let player2Keys := copy (List.replicate 8 false) (w.view.keyPressed.drop 8)
  let core1 := E.SetButtons1 w.view.console.core player1Keys
  let core2 := E.SetButtons2 core1 player2Keys
  { w with
    view := { w.view with console := { w.view.console with core := core2 } }
    calls := w.calls ++ [Call.SetButtons1 player1Keys, Call.SetButtons2 player2Keys] }

/-- The method `Update`. The send of the frame on the nil channel never
completes: the result is then `Except.error`, with the world as it is at the
send. -/
def Update [LT F] [DecidableRel (fun a b : F => a < b)] [Zero F] [One F]
    (E : Env M FS F Img) (w : World M FS F Img) (t dt : F) :
    Except (World M FS F Img) (World M FS F Img) :=
  let dt := if dt > 1 then 0 else dt
  let w1 := updateControllers E w
  let w2 := UpdateEvents E w1
  let console := E.StepSeconds w2.view.console dt
  let w3 : World M FS F Img :=
    { w2 with
      view := { w2.view with console := console }
      calls := w2.calls ++ [Call.StepSeconds dt] }
  match w3.view.imageChannel with
  | some ch =>
    Except.ok { w3 with calls := w3.calls ++ [Call.send (some ch) (E.Buffer console)] }
  | none => Except.error w3

/-- The arguments of the `StepSeconds` calls of a call list, in order. -/
def stepArgs (cs : List (Call F Img)) : List F :=
  cs.filterMap (fun c => match c with
    | Call.StepSeconds d => some d
    | _ => none)

/-- The world in which a run of `Update` ends: the world it returned, or the
world in which it is blocked in its send. -/
def lastWorld (o : Except (World M FS F Img) (World M FS F Img)) : World M FS F Img :=
  match o with
  | Except.ok w => w
  | Except.error w => w

end code

/-! ## A concrete environment

The code above is evaluated on it at concrete inputs. -/

/-- Modelled from the spec: the persistence boundary, "opaque byte blobs at a
path", which is not part of `gameview.go`. A disk that is not writable makes
every write fail. -/
structure Disk where
  files : List (String × List Nat)
  writable : Bool
deriving DecidableEq, Repr

/-- Modelled from the spec: reading the blob at a path; a missing file is a
failure. -/
def Disk.read (d : Disk) (p : String) : Option (List Nat) :=
  d.files.lookup p

/-- Modelled from the spec: writing a blob at a path. -/
def Disk.write (d : Disk) (p : String) (data : List Nat) : Disk × Bool :=
  if d.writable then ({ d with files := (p, data) :: d.files }, true) else (d, false)

/-- Modelled from the spec: the state of the Machine besides its cartridge:
audio sink and sample rate, the two controller inputs, the simulated time and
the number of frames rendered. -/
structure Core where
  sampleRate : Nat
  audio : Chan
  buttons1 : List Bool
  buttons2 : List Bool
  seconds : ℚ
  frames : Nat
deriving DecidableEq, Repr

/-- Modelled from the spec: a Machine and a persistence layer with the
capabilities the view needs (reset, step by seconds, serialize to a path,
deserialize from a path, current frame, controller and audio sinks). A
snapshot holds the battery memory only. -/
def demoEnv : Env Core Disk ℚ Nat where
  savePath := fun hash => "save/" ++ hash ++ ".dat"
  sramPath := fun hash => "sram/" ++ hash ++ ".dat"
  readSRAM := Disk.read
  writeSRAM := Disk.write
  SetAudioSampleRate := fun m rate => { m with sampleRate := rate }
  SetAudioChannel := fun m ch => { m with audio := ch }
  SetButtons1 := fun m b => { m with buttons1 := b }
  SetButtons2 := fun m b => { m with buttons2 := b }
  LoadState := fun c d p =>
    match d.read p with
    | some s => ({ c with Cartridge := { c.Cartridge with SRAM := s } }, true)
    | none => (c, false)
  SaveState := fun c d p => d.write p c.Cartridge.SRAM
  Reset := fun c => { c with core := { c.core with seconds := 0, frames := 0 } }
  StepSeconds := fun c dt =>
    { c with core := { c.core with seconds := c.core.seconds + dt, frames := c.core.frames + 1 } }
  Buffer := fun c => c.core.frames

/-- A console with a battery cartridge holding the bytes `1, 2, 3`. -/
def demoConsole : Console Core :=
  { Cartridge := { Battery := 1, SRAM := [1, 2, 3] }
    core := { sampleRate := 0, audio := none, buttons1 := [], buttons2 := [],
              seconds := 0, frames := 0 } }

/-- A fresh session with hash `room` on the disk `d`. -/
def demoWorld (d : Disk) : World Core Disk ℚ Nat :=
  { view := NewGameView demoConsole "title" "room" (some 0) (some 1) (some 2)
    disk := d
    calls := [] }

/-- An empty disk that accepts writes. -/
def emptyDisk : Disk := { files := [], writable := true }

/-- An empty disk on which every write fails. -/
def readOnlyDisk : Disk := { files := [], writable := false }

/-! ## Lemmas -/

section lemmas

variable {M FS F Img : Type}

theorem testBit_one_succ (k : Nat) : Nat.testBit 1 (k + 1) = false := by
  rw [Nat.testBit_succ]; simp

theorem ldiff_one (m : Nat) : Nat.ldiff 1 m = if Nat.testBit m 0 then 0 else 1 := by
  apply Nat.eq_of_testBit_eq
  intro i
  rw [Nat.testBit_ldiff]
  cases i with
  | zero => cases h : Nat.testBit m 0 <;> simp
  | succ j => rw [testBit_one_succ]; cases h : Nat.testBit m 0 <;> simp [testBit_one_succ]

/-- The test `(keysInBinary & 1) == 1` reads bit 0, also of a negative value. -/
theorem land_one_eq (k : Int) : (Int.land k 1 == 1) = Int.testBit k 0 := by
  cases k with
  | ofNat m =>
    show ((Int.ofNat (Nat.land m 1)) == 1) = Nat.testBit m 0
    have h : Nat.land m 1 = m % 2 := Nat.and_one_is_mod m
    rw [h, Nat.testBit_zero]
    rcases Nat.mod_two_eq_zero_or_one m with h2 | h2 <;> rw [h2] <;> decide
  | negSucc m =>
    show ((Int.ofNat (Nat.ldiff 1 m)) == 1) = !Nat.testBit m 0
    rw [ldiff_one]
    cases Nat.testBit m 0 <;> decide

/-- The shift `keysInBinary >> 1` moves bit `i + 1` to bit `i`. -/
theorem testBit_shiftRight_one (k : Int) (i : Nat) :
    Int.testBit (Int.shiftRight k 1) i = Int.testBit k (i + 1) := by
  cases k with
  | ofNat m =>
    show Nat.testBit (m >>> 1) i = Nat.testBit m (i + 1)
    rw [Nat.testBit_shiftRight, Nat.add_comm]
  | negSucc m =>
    show (!Nat.testBit (m >>> 1) i) = !Nat.testBit m (i + 1)
    rw [Nat.testBit_shiftRight, Nat.add_comm]

/-- The merge `(old && b) || b` is `b`. -/
theorem merge_eq (old b : Bool) : ((old && b) || b) = b := by
  cases old <;> cases b <;> rfl

/-- Loop invariant of the inner loop of the listener after `n` iterations. -/
theorem foldl_keyStep (kp : List Bool) (k : Int) (n : Nat) (hn : n ≤ kp.length) :
    ((List.range n).foldl keyStep (kp, k)).1.length = kp.length ∧
    (∀ i, Int.testBit ((List.range n).foldl keyStep (kp, k)).2 i = Int.testBit k (i + n)) ∧
    (∀ i, i < n → ((List.range n).foldl keyStep (kp, k)).1[i]? = some (Int.testBit k i)) := by
  induction n with
  | zero => simp
  | succ n ih =>
    obtain ⟨hlen, hbits, hset⟩ := ih (Nat.le_of_succ_le hn)
    rw [List.range_succ, List.foldl_append]
    simp only [List.foldl_cons, List.foldl_nil]
    generalize (List.range n).foldl keyStep (kp, k) = st at hlen hbits hset
    refine ⟨?_, ?_, ?_⟩
    · simp [keyStep, hlen]
    · intro i
      simp only [keyStep]
      rw [testBit_shiftRight_one, hbits]
      congr 1; omega
    · intro i hi
      simp only [keyStep, merge_eq, land_one_eq]
      by_cases h : i = n
      · subst h
        rw [List.getElem?_set_self (by omega), hbits]
        simp
      · rw [List.getElem?_set_ne (by omega)]
        exact hset i (by omega)

/-- One run of the inner loop overwrites all 16 entries with the bits of the
received value. -/
theorem decodeKeys_spec (kp : List Bool) (k : Int) (hlen : kp.length = 16) :
    (decodeKeys kp k).length = 16 ∧
    ∀ i, i < 16 → (decodeKeys kp k)[i]? = some (Int.testBit k i) := by
  have h := foldl_keyStep kp k 16 (by omega)
  exact ⟨by simpa [decodeKeys, NumKeys, hlen] using h.1, h.2.2⟩

/-- Bit 0 is the parity. -/
theorem testBit_zero_eq (k : Int) : Int.testBit k 0 = decide (k % 2 = 1) := by
  cases k with
  | ofNat m =>
    show Nat.testBit m 0 = decide ((m : Int) % 2 = 1)
    rw [Nat.testBit_zero]
    rcases Nat.mod_two_eq_zero_or_one m with h2 | h2
    · rw [h2]; symm; simp; omega
    · rw [h2]; symm; simp; omega
  | negSucc m =>
    show (!Nat.testBit m 0) = decide (Int.negSucc m % 2 = 1)
    rw [Nat.testBit_zero, Int.negSucc_eq]
    rcases Nat.mod_two_eq_zero_or_one m with h2 | h2
    · rw [h2]; symm; simp; omega
    · rw [h2]; symm; simp; omega

/-- Bit `j` of `k >> i` is bit `i + j` of `k`. -/
theorem testBit_shiftRight_eq (k : Int) (i j : Nat) :
    Int.testBit (k >>> i) j = Int.testBit k (i + j) := by
  cases k with
  | ofNat m =>
    show Nat.testBit (m >>> i) j = Nat.testBit m (i + j)
    rw [Nat.testBit_shiftRight]
  | negSucc m =>
    show (!Nat.testBit (m >>> i) j) = !Nat.testBit m (i + j)
    rw [Nat.testBit_shiftRight]

/-- Bit `i` in the sense of `Int.testBit` is the parity of the floor quotient
by `2 ^ i`, the bit of the two's complement representation. -/
theorem testBit_eq_div_mod (k : Int) (i : Nat) :
    Int.testBit k i = decide (k / 2 ^ i % 2 = 1) := by
  have h := testBit_shiftRight_eq k i 0
  rw [Nat.add_zero] at h
  rw [← h, testBit_zero_eq, Int.shiftRight_eq_div_pow]
  simp

/-- A second `Save` before the next `Update` leaves no trace of the first. -/
theorem Save_Save (E : Env M FS F Img) (w : World M FS F Img) (h1 h2 : String)
    (f1 f2 : Option Nat) :
    Save E (Save E w h1 f1) h2 f2 = Save E w h2 f2 := rfl

/-- A second `Load` before the next `Update` leaves no trace of the first. -/
theorem Load_Load (E : Env M FS F Img) (w : World M FS F Img) (p1 p2 : String)
    (f1 f2 : Option Nat) :
    Load E (Load E w p1 f1) p2 f2 = Load E w p2 f2 := rfl

/-- The job stored by `Save` has the path of the hash of the view. -/
theorem Save_job (E : Env M FS F Img) (w : World M FS F Img) (h : String) (f : Option Nat) :
    (Save E w h f).view.savingJob = some { path := E.savePath w.view.hash, extraFunc := f } :=
  rfl

/-- The job stored by `Load` has the path of the hash of the view. -/
theorem Load_job (E : Env M FS F Img) (w : World M FS F Img) (p : String) (f : Option Nat) :
    (Load E w p f).view.loadingJob = some { path := E.savePath w.view.hash, extraFunc := f } :=
  rfl

/-- After `UpdateEvents` both slots are empty, no `StepSeconds` was called, and
the keys and the image channel are as before. -/
theorem UpdateEvents_slots (E : Env M FS F Img) (w : World M FS F Img) :
    (UpdateEvents E w).view.savingJob = none ∧ (UpdateEvents E w).view.loadingJob = none ∧
    stepArgs (UpdateEvents E w).calls = stepArgs w.calls ∧
    (UpdateEvents E w).view.keyPressed = w.view.keyPressed ∧
    (UpdateEvents E w).view.imageChannel = w.view.imageChannel := by
  obtain ⟨view, disk, calls⟩ := w
  obtain ⟨console, title, hash, keyPressed, savingJob, loadingJob, ic, ac, inc⟩ := view
  rcases savingJob with _ | ⟨p, _ | f⟩ <;> rcases loadingJob with _ | ⟨q, _ | g⟩ <;>
    simp [UpdateEvents, runSavingJob, runLoadingJob, goStmt, stepArgs, List.filterMap_append]

/-- With both slots empty, `UpdateEvents` does nothing. -/
theorem UpdateEvents_idle (E : Env M FS F Img) (w : World M FS F Img)
    (hs : w.view.savingJob = none) (hl : w.view.loadingJob = none) :
    UpdateEvents E w = w := by
  simp [UpdateEvents, runSavingJob, runLoadingJob, hs, hl]

/-- The image channel at the send of `Update` is the one of the view. -/
theorem imageChannel_at_send (E : Env M FS F Img) (w : World M FS F Img) :
    (UpdateEvents E (updateControllers E w)).view.imageChannel = w.view.imageChannel :=
  (UpdateEvents_slots E (updateControllers E w)).2.2.2.2

/-- On an image channel that is not nil, `Update` returns. -/
theorem Update_returns [LT F] [DecidableRel (fun a b : F => a < b)] [Zero F] [One F]
    (E : Env M FS F Img) (w : World M FS F Img) (t dt : F) (ch : Nat)
    (h : w.view.imageChannel = some ch) :
    Update E w t dt = Except.ok (lastWorld (Update E w t dt)) := by
  have h2 := imageChannel_at_send E w
  rw [h] at h2
  simp only [Update, h2, lastWorld]

/-- On the nil image channel, `Update` is blocked in its send. -/
theorem Update_blocks [LT F] [DecidableRel (fun a b : F => a < b)] [Zero F] [One F]
    (E : Env M FS F Img) (w : World M FS F Img) (t dt : F)
    (h : w.view.imageChannel = none) :
    Update E w t dt = Except.error (lastWorld (Update E w t dt)) := by
  have h2 := imageChannel_at_send E w
  rw [h] at h2
  simp only [Update, h2, lastWorld]

/-- The view in which a run of `Update` ends: the one after `UpdateEvents`,
with the console stepped. -/
theorem Update_view [LT F] [DecidableRel (fun a b : F => a < b)] [Zero F] [One F]
    (E : Env M FS F Img) (w : World M FS F Img) (t dt : F) :
    (lastWorld (Update E w t dt)).view =
      { (UpdateEvents E (updateControllers E w)).view with
        console := E.StepSeconds (UpdateEvents E (updateControllers E w)).view.console
          (if dt > 1 then 0 else dt) } := by
  have h2 := imageChannel_at_send E w
  cases hc : w.view.imageChannel with
  | none => rw [hc] at h2; simp only [Update, h2, lastWorld]
  | some ch => rw [hc] at h2; simp only [Update, h2, lastWorld]

/-- The calls of a run of `Update`: those of `updateControllers` and
`UpdateEvents`, one `StepSeconds`, and the send when the channel is not nil. -/
theorem Update_calls [LT F] [DecidableRel (fun a b : F => a < b)] [Zero F] [One F]
    (E : Env M FS F Img) (w : World M FS F Img) (t dt : F) :
    (lastWorld (Update E w t dt)).calls =
      (UpdateEvents E (updateControllers E w)).calls ++
        [Call.StepSeconds (if dt > 1 then 0 else dt)] ++
        (match w.view.imageChannel with
          | some ch => [Call.send (some ch)
              (E.Buffer (E.StepSeconds (UpdateEvents E (updateControllers E w)).view.console
                (if dt > 1 then 0 else dt)))]
          | none => []) := by
  have h2 := imageChannel_at_send E w
  cases hc : w.view.imageChannel with
  | none => rw [hc] at h2; simp [Update, h2, lastWorld]
  | some ch => rw [hc] at h2; simp [Update, h2, lastWorld]

/-- With both slots empty, the calls of `Update` are the two `SetButtons`, one
`StepSeconds`, and the send when the channel is not nil. -/
theorem Update_idle_calls [LT F] [DecidableRel (fun a b : F => a < b)] [Zero F] [One F]
    (E : Env M FS F Img) (w : World M FS F Img) (t dt : F)
    (hs : w.view.savingJob = none) (hl : w.view.loadingJob = none) :
    (lastWorld (Update E w t dt)).calls =
      w.calls ++
        [Call.SetButtons1 (copy (List.replicate 8 false) (w.view.keyPressed.take 8)),
         Call.SetButtons2 (copy (List.replicate 8 false) (w.view.keyPressed.drop 8)),
         Call.StepSeconds (if dt > 1 then 0 else dt)] ++
        (match w.view.imageChannel with
          | some ch => [Call.send (some ch)
              (E.Buffer (E.StepSeconds (updateControllers E w).view.console
                (if dt > 1 then 0 else dt)))]
          | none => []) := by
  have hidle := UpdateEvents_idle E (updateControllers E w) hs hl
  rw [Update_calls, hidle]
  simp [updateControllers]

/-- The world a run of `Update` returned is the world in which it ended. -/
theorem lastWorld_of_ok [LT F] [DecidableRel (fun a b : F => a < b)] [Zero F] [One F]
    (E : Env M FS F Img) (w w1 : World M FS F Img) (t dt : F)
    (h : Update E w t dt = Except.ok w1) :
    w1 = lastWorld (Update E w t dt) ∧ ∃ ch, w.view.imageChannel = some ch := by
  refine ⟨by rw [h]; rfl, ?_⟩
  cases hc : w.view.imageChannel with
  | some ch => exact ⟨ch, rfl⟩
  | none =>
    rw [Update_blocks E w t dt hc] at h
    cases h

/-- The slots are empty in the world in which a run of `Update` ends, and the
image channel is the one of the view. -/
theorem Update_slots [LT F] [DecidableRel (fun a b : F => a < b)] [Zero F] [One F]
    (E : Env M FS F Img) (w : World M FS F Img) (t dt : F) :
    (lastWorld (Update E w t dt)).view.savingJob = none ∧
    (lastWorld (Update E w t dt)).view.loadingJob = none ∧
    (lastWorld (Update E w t dt)).view.imageChannel = w.view.imageChannel := by
  rw [Update_view]
  obtain ⟨hs, hl, _, _, hc⟩ := UpdateEvents_slots E (updateControllers E w)
  exact ⟨hs, hl, hc⟩

/-- On a 16-entry key array, `copy` into the fresh `[8]bool` arrays yields the
two halves. -/
theorem copy_halves (kp : List Bool) (hlen : kp.length = 16) :
    copy (List.replicate 8 false) (kp.take 8) = kp.take 8 ∧
    copy (List.replicate 8 false) (kp.drop 8) = kp.drop 8 := by
  constructor <;> simp [copy, hlen]

/-- In the concrete environment a successful write is read back unchanged. -/
theorem demoEnv_write_read (d : Disk) (p : String) (s : List Nat) (d2 : Disk)
    (h : demoEnv.writeSRAM d p s = (d2, true)) : demoEnv.readSRAM d2 p = some s := by
  simp only [demoEnv, Disk.write] at h
  split at h
  · cases h
    simp [demoEnv, Disk.read, List.lookup]
  · cases h

end lemmas

/-! ## The input listener -/

section claims

variable {M FS F Img : Type}

/-- C1 (decode replace): whatever the previous 16 entries of `keyPressed` and
whatever the received integer `b` (negative, or with bits above bit 15), after
the listener has processed `b` the array still has 16 entries and entry `i` is
bit `i` of `b`, least significant first, for every `i < 16`; bit `i` is given
both as `Int.testBit` and as the parity of `b / 2 ^ i`. From all-true, `b = 0`
gives all-false. -/
theorem ListenToInputChannel_decode_replace (w : World M FS F Img) (b : Int)
    (hlen : w.view.keyPressed.length = 16) :
    (ListenToInputChannel w [b]).view.keyPressed.length = 16 ∧
    (∀ i, i < 16 →
      (ListenToInputChannel w [b]).view.keyPressed[i]? = some (Int.testBit b i)) ∧
    (∀ i, i < 16 →
      (ListenToInputChannel w [b]).view.keyPressed[i]? = some (decide (b / 2 ^ i % 2 = 1))) ∧
    decodeKeys (List.replicate 16 true) 0 = List.replicate 16 false := by
  have h := decodeKeys_spec w.view.keyPressed b hlen
  have e : (ListenToInputChannel w [b]).view.keyPressed = decodeKeys w.view.keyPressed b := by
    simp only [ListenToInputChannel, List.foldl_cons, List.foldl_nil]
  rw [e]
  refine ⟨h.1, h.2, ?_, ?_⟩
  · intro i hi
    rw [← testBit_eq_div_mod]
    exact h.2 i hi
  · decide

/-- Witness of C1 at the negative input `-2` (every bit but bit 0 is set,
also above bit 15): entry 0 becomes false and entry 15 true. -/
theorem ListenToInputChannel_decode_replace_witness :
    (demoWorld emptyDisk).view.keyPressed.length = 16 ∧
    (ListenToInputChannel (demoWorld emptyDisk) [-2]).view.keyPressed[0]? = some false ∧
    (ListenToInputChannel (demoWorld emptyDisk) [-2]).view.keyPressed[15]? = some true := by
  have h := ListenToInputChannel_decode_replace (demoWorld emptyDisk) (-2) (by decide)
  refine ⟨by decide, ?_, ?_⟩
  · rw [h.2.1 0 (by decide)]; decide
  · rw [h.2.1 15 (by decide)]; decide

/-! ## The controllers -/

/-- C8 (controller split): on a 16-entry key array, `updateControllers` makes
exactly two calls, `SetButtons` of controller 1 with entries 0..7 in order and
`SetButtons` of controller 2 with entries 8..15 in order (entry `8 + k` of the
array is entry `k` of controller 2), and leaves `keyPressed` unchanged. -/
theorem updateControllers_split (E : Env M FS F Img) (w : World M FS F Img)
    (hlen : w.view.keyPressed.length = 16) :
    ∃ p1 p2 : List Bool,
      (updateControllers E w).calls =
        w.calls ++ [Call.SetButtons1 p1, Call.SetButtons2 p2] ∧
      (updateControllers E w).view.console.core =
        E.SetButtons2 (E.SetButtons1 w.view.console.core p1) p2 ∧
      p1.length = 8 ∧ p2.length = 8 ∧ p1 ++ p2 = w.view.keyPressed ∧
      (∀ k, k < 8 → p1[k]? = w.view.keyPressed[k]? ∧ p2[k]? = w.view.keyPressed[8 + k]?) ∧
      (updateControllers E w).view.keyPressed = w.view.keyPressed := by
  obtain ⟨h1, h2⟩ := copy_halves w.view.keyPressed hlen
  refine ⟨w.view.keyPressed.take 8, w.view.keyPressed.drop 8, ?_, ?_, ?_, ?_, ?_, ?_, ?_⟩
  · simp only [updateControllers, h1, h2]
  · simp only [updateControllers, h1, h2]
  · simp [hlen]
  · simp [hlen]
  · exact List.take_append_drop 8 _
  · intro k hk
    constructor
    · rw [List.getElem?_take]; simp [hk]
    · rw [List.getElem?_drop]
  · rfl

/-- Witness of C8 on the key array `true, false, ...` / `false, true, ...` of
the specification. -/
theorem updateControllers_split_witness :
    ([true, false, false, false, false, false, false, false,
      false, true, false, false, false, false, false, false] : List Bool).length = 16 ∧
    ∃ p1 p2 : List Bool,
      (updateControllers demoEnv
        { demoWorld emptyDisk with
          view := { (demoWorld emptyDisk).view with
            keyPressed := [true, false, false, false, false, false, false, false,
              false, true, false, false, false, false, false, false] } }).calls =
        [Call.SetButtons1 p1, Call.SetButtons2 p2] ∧
      p1 ++ p2 = [true, false, false, false, false, false, false, false,
              false, true, false, false, false, false, false, false] ∧
      p1.length = 8 ∧ p2.length = 8 := by
  refine ⟨by decide, ?_⟩
  obtain ⟨p1, p2, hc, _, hl1, hl2, happ, _, _⟩ :=
    updateControllers_split demoEnv
      { demoWorld emptyDisk with
        view := { (demoWorld emptyDisk).view with
          keyPressed := [true, false, false, false, false, false, false, false,
            false, true, false, false, false, false, false, false] } } (by decide)
  exact ⟨p1, p2, hc, happ, hl1, hl2⟩

/-! ## Session entry and exit -/

/-- C6 (enter: resume or reset): `Enter` sets up audio and calls `LoadState`
on the save path of the hash of the view. If that succeeds these are all its
calls (no `Reset`) and the console is the one `LoadState` left. If it fails,
`Reset` is called exactly once, followed by one `readSRAM` of the SRAM path
when the cartridge has a battery; the SRAM is then the image read when
`Battery != 0` and the read succeeds, and the SRAM left by `Reset` otherwise.
So `Reset` is among the calls of `Enter` exactly when `LoadState` fails. -/
theorem Enter_resume_or_reset (E : Env M FS F Img) (w : World M FS F Img) :
    let c : Console M :=
      { Cartridge := w.view.console.Cartridge
        core := E.SetAudioChannel (E.SetAudioSampleRate w.view.console.core SampleRate)
          w.view.audioChannel }
    let r := E.LoadState c w.disk (E.savePath w.view.hash)
    let c3 := E.Reset r.1
    let setup : List (Call F Img) :=
      [Call.SetAudioSampleRate SampleRate, Call.SetAudioChannel w.view.audioChannel,
       Call.LoadState (E.savePath w.view.hash) r.2]
    (r.2 = true →
      (Enter E w).calls = w.calls ++ setup ∧ (Enter E w).view.console = r.1) ∧
    (r.2 = false →
      (Enter E w).calls = w.calls ++ setup ++ [Call.Reset] ++
        (if c3.Cartridge.Battery ≠ 0 then
          [Call.readSRAM (E.sramPath w.view.hash)
            (E.readSRAM w.disk (E.sramPath w.view.hash)).isSome]
         else []) ∧
      (Enter E w).view.console.core = c3.core ∧
      (Enter E w).view.console.Cartridge.Battery = c3.Cartridge.Battery ∧
      (Enter E w).view.console.Cartridge.SRAM =
        (if c3.Cartridge.Battery ≠ 0 then
          (E.readSRAM w.disk (E.sramPath w.view.hash)).getD c3.Cartridge.SRAM
         else c3.Cartridge.SRAM)) ∧
    (Call.Reset ∈ (Enter E w).calls.drop w.calls.length ↔ r.2 = false) ∧
    (Enter E w).disk = w.disk := by
  simp only [Enter]
  generalize E.LoadState
      { Cartridge := w.view.console.Cartridge
        core := E.SetAudioChannel (E.SetAudioSampleRate w.view.console.core SampleRate)
          w.view.audioChannel } w.disk (E.savePath w.view.hash) = r
  obtain ⟨c1, ok⟩ := r
  cases ok
  · by_cases hb : (E.Reset c1).Cartridge.Battery = 0
    · simp [hb]
    · cases hrd : E.readSRAM w.disk (E.sramPath w.view.hash) <;> simp [hb, hrd]
  · simp

/-- Witness of C6 in the concrete environment: with a snapshot of the session
on disk `Enter` makes its three setup calls and no `Reset`; with no snapshot
but an SRAM file holding `7, 8`, the battery cartridge ends with SRAM `7, 8`
after the reset. -/
theorem Enter_resume_or_reset_witness :
    (Enter demoEnv
        (demoWorld { files := [("save/room.dat", [4, 5])], writable := true })).calls =
      [Call.SetAudioSampleRate 16000, Call.SetAudioChannel (some 1),
       Call.LoadState "save/room.dat" true] ∧
    (Enter demoEnv
        (demoWorld { files := [("sram/room.dat", [7, 8])], writable := true })
      ).view.console.Cartridge.SRAM = [7, 8] := by
  constructor
  · have h := (Enter_resume_or_reset demoEnv
      (demoWorld { files := [("save/room.dat", [4, 5])], writable := true })).1 (by rfl)
    exact h.1
  · have h := (Enter_resume_or_reset demoEnv
      (demoWorld { files := [("sram/room.dat", [7, 8])], writable := true })).2.1 (by rfl)
    exact h.2.2.2

/-- C7 (exit persistence): for a cartridge with a battery `Exit` makes, after
detaching audio, exactly one `writeSRAM` call, on the SRAM path of the hash of
the view and with the SRAM the cartridge had when `Exit` was called; when that
write succeeds, `readSRAM` of the same path on the resulting disk returns that
SRAM, given that the storage helpers return what was written at a path. For a
cartridge without a battery `Exit` makes no `writeSRAM` call and the disk is
unchanged. -/
theorem Exit_persists_sram (E : Env M FS F Img) (w : World M FS F Img)
    (hrt : ∀ d p s d2, E.writeSRAM d p s = (d2, true) → E.readSRAM d2 p = some s) :
    (w.view.console.Cartridge.Battery ≠ 0 →
      (Exit E w).calls = w.calls ++
        [Call.SetAudioChannel none, Call.SetAudioSampleRate 0,
         Call.writeSRAM (E.sramPath w.view.hash) w.view.console.Cartridge.SRAM
           (E.writeSRAM w.disk (E.sramPath w.view.hash) w.view.console.Cartridge.SRAM).2] ∧
      (Exit E w).disk =
        (E.writeSRAM w.disk (E.sramPath w.view.hash) w.view.console.Cartridge.SRAM).1 ∧
      ((E.writeSRAM w.disk (E.sramPath w.view.hash) w.view.console.Cartridge.SRAM).2 = true →
        E.readSRAM (Exit E w).disk (E.sramPath w.view.hash) =
          some w.view.console.Cartridge.SRAM)) ∧
    (w.view.console.Cartridge.Battery = 0 →
      (Exit E w).calls = w.calls ++ [Call.SetAudioChannel none, Call.SetAudioSampleRate 0] ∧
      (Exit E w).disk = w.disk) := by
  constructor
  · intro hb
    have hb2 : (w.view.console.Cartridge.Battery != 0) = true := by simpa using hb
    have hE : Exit E w =
        { view := { w.view with
            console := { w.view.console with
              core := E.SetAudioSampleRate (E.SetAudioChannel w.view.console.core none) 0 } }
          disk := (E.writeSRAM w.disk (E.sramPath w.view.hash) w.view.console.Cartridge.SRAM).1
          calls := w.calls ++ [Call.SetAudioChannel none, Call.SetAudioSampleRate 0] ++
            [Call.writeSRAM (E.sramPath w.view.hash) w.view.console.Cartridge.SRAM
              (E.writeSRAM w.disk (E.sramPath w.view.hash)
                w.view.console.Cartridge.SRAM).2] } := by
      simp only [Exit, hb2, if_true]
    rw [hE]
    refine ⟨by simp, rfl, ?_⟩
    intro hok
    exact hrt _ _ _ _ (Prod.ext rfl hok)
  · intro hb
    have hb2 : (w.view.console.Cartridge.Battery != 0) = false := by simp [hb]
    have hE : Exit E w =
        { w with
          view := { w.view with
            console := { w.view.console with
              core := E.SetAudioSampleRate (E.SetAudioChannel w.view.console.core none) 0 } }
          calls := w.calls ++ [Call.SetAudioChannel none, Call.SetAudioSampleRate 0] } := by
      simp only [Exit, hb2]
      rfl
    rw [hE]
    exact ⟨rfl, rfl⟩

/-- Witness of C7 in the concrete environment: the session `room` with a
battery cartridge holding `1, 2, 3` exits on an empty writable disk, and the
SRAM file then reads back `1, 2, 3`. -/
theorem Exit_persists_sram_witness :
    (∀ d p s d2, demoEnv.writeSRAM d p s = (d2, true) → demoEnv.readSRAM d2 p = some s) ∧
    demoEnv.readSRAM (Exit demoEnv (demoWorld emptyDisk)).disk "sram/room.dat" =
      some [1, 2, 3] :=
  ⟨demoEnv_write_read,
   (Exit_persists_sram demoEnv (demoWorld emptyDisk) demoEnv_write_read).1 (by decide)
     |>.2.2 (by decide)⟩

/-! ## Pending jobs and the update step -/

/-- C2 (job supersession), the code at a concrete input: in the session with
hash `room`, `Save` with hash `h1` and function 1, then `Save` with hash `h2`
and function 2, then one `Update`. Exactly one `SaveState` is performed and
only function 2 is launched, but the path saved to is the one of the hash of
the view, `save/room.dat`, not the one of the requested hash `h2`. -/
theorem Save_twice_then_Update :
    (Update demoEnv
        (Save demoEnv (Save demoEnv (demoWorld emptyDisk) "h1" (some 1)) "h2" (some 2))
        0 0).toOption.map (fun w => w.calls) =
      some [Call.SetButtons1 (List.replicate 8 false), Call.SetButtons2 (List.replicate 8 false),
        Call.SaveState "save/room.dat" true, Call.go 2,
        Call.StepSeconds 0, Call.send (some 0) 1] ∧
    demoEnv.savePath "h2" = "save/h2.dat" ∧
    demoEnv.savePath "h2" ≠ "save/room.dat" := by
  refine ⟨by rfl, by decide, by decide⟩

/-- C3 (load uses the requested path), the code at a concrete input: in the
session with hash `room`, on a disk that holds a snapshot at `other/path.dat`
only, `Load` of `other/path.dat` followed by one `Update` calls `LoadState`
on `save/room.dat`, the path of the hash of the view, which fails; the
requested path is never passed to the machine. -/
theorem Load_then_Update_ignores_path :
    (Update demoEnv
        (Load demoEnv (demoWorld { files := [("other/path.dat", [9])], writable := true })
          "other/path.dat" (some 7))
        0 0).toOption.map (fun w => w.calls) =
      some [Call.SetButtons1 (List.replicate 8 false), Call.SetButtons2 (List.replicate 8 false),
        Call.LoadState "save/room.dat" false, Call.go 7,
        Call.StepSeconds 0, Call.send (some 0) 1] ∧
    (demoEnv.LoadState demoConsole { files := [("other/path.dat", [9])], writable := true }
        "other/path.dat").2 = true ∧
    "other/path.dat" ≠ "save/room.dat" := by
  refine ⟨by rfl, by decide, by decide⟩

/-- C4 (job single-consumption): for every view state, after `UpdateEvents`
both slots are empty and a further `UpdateEvents` changes nothing; the world
in which `Update` ends (returned, or blocked in its send on the nil channel)
has both slots empty, and `Update` returns exactly when the image channel is
not nil. After an `Update` that returned, a second `Update` returns after
exactly four calls, the two `SetButtons`, one `StepSeconds` and the send of
the frame: no `SaveState`, no `LoadState`, no launch. Likewise an `Update`
after `UpdateEvents` makes the two `SetButtons` and one `StepSeconds`, and at
most the send after them. -/
theorem Update_consumes_jobs [LT F] [DecidableRel (fun a b : F => a < b)] [Zero F] [One F]
    (E : Env M FS F Img) (w : World M FS F Img) (t dt : F) :
    ((UpdateEvents E w).view.savingJob = none ∧ (UpdateEvents E w).view.loadingJob = none ∧
      UpdateEvents E (UpdateEvents E w) = UpdateEvents E w) ∧
    ((lastWorld (Update E w t dt)).view.savingJob = none ∧
      (lastWorld (Update E w t dt)).view.loadingJob = none) ∧
    (∀ ch, w.view.imageChannel = some ch →
      Update E w t dt = Except.ok (lastWorld (Update E w t dt))) ∧
    (w.view.imageChannel = none →
      Update E w t dt = Except.error (lastWorld (Update E w t dt))) ∧
    (∀ w1, Update E w t dt = Except.ok w1 →
      w1.view.savingJob = none ∧ w1.view.loadingJob = none ∧
      UpdateEvents E w1 = w1 ∧
      ∀ t2 dt2 : F, ∃ w2 p1 p2 d img,
        Update E w1 t2 dt2 = Except.ok w2 ∧
        w2.calls = w1.calls ++
          [Call.SetButtons1 p1, Call.SetButtons2 p2, Call.StepSeconds d,
           Call.send w1.view.imageChannel img] ∧
        w2.view.savingJob = none ∧ w2.view.loadingJob = none) ∧
    (∀ t2 dt2 : F, ∃ p1 p2 d sends,
      (lastWorld (Update E (UpdateEvents E w) t2 dt2)).calls =
        (UpdateEvents E w).calls ++
          [Call.SetButtons1 p1, Call.SetButtons2 p2, Call.StepSeconds d] ++ sends ∧
      (sends = [] ∨ ∃ ch img, sends = [Call.send ch img])) := by
  obtain ⟨hs, hl, _, _, hc⟩ := UpdateEvents_slots E w
  obtain ⟨hs1, hl1, hc1⟩ := Update_slots E w t dt
  refine ⟨⟨hs, hl, UpdateEvents_idle E _ hs hl⟩, ⟨hs1, hl1⟩,
    fun ch h => Update_returns E w t dt ch h, Update_blocks E w t dt, ?_, ?_⟩
  · intro w1 h
    obtain ⟨rfl, ch, hch⟩ := lastWorld_of_ok E w w1 t dt h
    refine ⟨hs1, hl1, UpdateEvents_idle E _ hs1 hl1, ?_⟩
    intro t2 dt2
    have hch1 : (lastWorld (Update E w t dt)).view.imageChannel = some ch := by
      rw [hc1, hch]
    have hcalls := Update_idle_calls E (lastWorld (Update E w t dt)) t2 dt2 hs1 hl1
    obtain ⟨hs2, hl2, _⟩ := Update_slots E (lastWorld (Update E w t dt)) t2 dt2
    refine ⟨_,
      copy (List.replicate 8 false) ((lastWorld (Update E w t dt)).view.keyPressed.take 8),
      copy (List.replicate 8 false) ((lastWorld (Update E w t dt)).view.keyPressed.drop 8),
      (if dt2 > 1 then 0 else dt2),
      E.Buffer (E.StepSeconds (updateControllers E (lastWorld (Update E w t dt))).view.console
        (if dt2 > 1 then 0 else dt2)),
      Update_returns E _ t2 dt2 ch hch1, ?_, hs2, hl2⟩
    rw [hcalls, hch1]
    simp
  · intro t2 dt2
    have hcalls := Update_idle_calls E (UpdateEvents E w) t2 dt2 hs hl
    refine ⟨_, _, _, _, hcalls, ?_⟩
    cases (UpdateEvents E w).view.imageChannel with
    | none => exact Or.inl rfl
    | some ch => exact Or.inr ⟨_, _, rfl⟩

/-- Witness of C4: a session with a pending save and a pending load runs one
`Update`, which returns with both slots empty. -/
theorem Update_consumes_jobs_witness :
    ∃ w1,
      Update demoEnv (Load demoEnv (Save demoEnv (demoWorld emptyDisk) "room" (some 1))
        "save/room.dat" (some 2)) 0 0 = Except.ok w1 ∧
      w1.view.savingJob = none ∧ w1.view.loadingJob = none := by
  obtain ⟨_, h2, h3, _⟩ := Update_consumes_jobs demoEnv
    (Load demoEnv (Save demoEnv (demoWorld emptyDisk) "room" (some 1)) "save/room.dat" (some 2))
    0 0
  exact ⟨_, h3 0 rfl, h2.1, h2.2⟩

/-- C5 (elapsed-time clamp): for every view state, `t` and `dt`, a run of
`Update` makes exactly one `StepSeconds` call, and its argument is `0` when
`dt > 1` and `dt` otherwise; the console is the one that call returned, and
`t` has no influence on the result. The run then returns when the image
channel is not nil and stays blocked in its send when it is nil. -/
theorem Update_clamps_dt [LT F] [DecidableRel (fun a b : F => a < b)] [Zero F] [One F]
    (E : Env M FS F Img) (w : World M FS F Img) (t dt : F) :
    stepArgs (lastWorld (Update E w t dt)).calls =
      stepArgs w.calls ++ [if dt > 1 then 0 else dt] ∧
    (lastWorld (Update E w t dt)).view.console =
      E.StepSeconds (UpdateEvents E (updateControllers E w)).view.console
        (if dt > 1 then 0 else dt) ∧
    (∀ t2 : F, Update E w t2 dt = Update E w t dt) ∧
    (∀ ch, w.view.imageChannel = some ch →
      Update E w t dt = Except.ok (lastWorld (Update E w t dt))) ∧
    (w.view.imageChannel = none →
      Update E w t dt = Except.error (lastWorld (Update E w t dt))) := by
  refine ⟨?_, by rw [Update_view], fun _ => rfl,
    fun ch h => Update_returns E w t dt ch h, Update_blocks E w t dt⟩
  obtain ⟨_, _, hstep, _, _⟩ := UpdateEvents_slots E (updateControllers E w)
  have h0 : stepArgs (updateControllers E w).calls = stepArgs w.calls := by
    simp [updateControllers, stepArgs, List.filterMap_append]
  rw [h0] at hstep
  rw [Update_calls]
  simp only [stepArgs, List.filterMap_append] at hstep ⊢
  rw [hstep]
  cases w.view.imageChannel <;> simp

/-- Witness of C5 over the rationals: `dt = 3/2` steps `0` seconds,
`dt = 1/2` steps `1/2` and `dt = 1` steps `1`. -/
theorem Update_clamps_dt_witness :
    (∃ w1, Update demoEnv (demoWorld emptyDisk) 0 (3 / 2) = Except.ok w1 ∧
      stepArgs w1.calls = [0]) ∧
    (∃ w1, Update demoEnv (demoWorld emptyDisk) 0 (1 / 2) = Except.ok w1 ∧
      stepArgs w1.calls = [1 / 2]) ∧
    (∃ w1, Update demoEnv (demoWorld emptyDisk) 0 1 = Except.ok w1 ∧
      stepArgs w1.calls = [1]) := by
  refine ⟨?_, ?_, ?_⟩
  · obtain ⟨h1, _, _, h4, _⟩ := Update_clamps_dt demoEnv (demoWorld emptyDisk) 0 (3 / 2)
    refine ⟨_, h4 0 rfl, ?_⟩
    rw [h1]
    norm_num [stepArgs, demoWorld]
  · obtain ⟨h1, _, _, h4, _⟩ := Update_clamps_dt demoEnv (demoWorld emptyDisk) 0 (1 / 2)
    refine ⟨_, h4 0 rfl, ?_⟩
    rw [h1]
    norm_num [stepArgs, demoWorld]
  · obtain ⟨h1, _, _, h4, _⟩ := Update_clamps_dt demoEnv (demoWorld emptyDisk) 0 1
    refine ⟨_, h4 0 rfl, ?_⟩
    rw [h1]
    norm_num [stepArgs, demoWorld]

/-- C9 (extra action only on success), refuted at a concrete input: on a disk
where every write fails, the `SaveState` of a pending save fails, and `Update`
launches the function 7 of the job all the same; likewise the `LoadState` of a
pending load fails on an empty disk and the function 8 of the job is launched.
In both runs the slot is cleared and the step goes on. -/
theorem Update_launches_after_failure :
    (∀ c, (demoEnv.SaveState c readOnlyDisk "save/room.dat").2 = false) ∧
    (Update demoEnv (Save demoEnv (demoWorld readOnlyDisk) "room" (some 7))
        0 0).toOption.map (fun w => (w.calls, w.view.savingJob)) =
      some ([Call.SetButtons1 (List.replicate 8 false),
        Call.SetButtons2 (List.replicate 8 false),
        Call.SaveState "save/room.dat" false, Call.go 7,
        Call.StepSeconds 0, Call.send (some 0) 1], none) ∧
    (∀ c, (demoEnv.LoadState c emptyDisk "save/room.dat").2 = false) ∧
    (Update demoEnv (Load demoEnv (demoWorld emptyDisk) "save/room.dat" (some 8))
        0 0).toOption.map (fun w => (w.calls, w.view.loadingJob)) =
      some ([Call.SetButtons1 (List.replicate 8 false),
        Call.SetButtons2 (List.replicate 8 false),
        Call.LoadState "save/room.dat" false, Call.go 8,
        Call.StepSeconds 0, Call.send (some 0) 1], none) := by
  refine ⟨fun _ => rfl, by rfl, fun _ => rfl, by rfl⟩

/-- C9 as amended: whatever jobs are pending, each with a function that is
not nil (`js` the save job, `jl` the load job, as a path and a function), the
calls of `Update` are the two `SetButtons`, then for a pending save
`SaveState` on the path of the job followed by the launch of its function,
then for a pending load `LoadState` on the path of the job followed by the
launch of its function, then `StepSeconds`, and last the send of the frame
when the image channel is not nil. The launch follows whether the result
`oks`, `okl` of the machine operation is success or failure, and both slots
end empty. `Update` returns when the image channel is not nil. -/
theorem Update_launches_regardless [LT F] [DecidableRel (fun a b : F => a < b)] [Zero F]
    [One F] (E : Env M FS F Img) (w : World M FS F Img) (t dt : F)
    (js jl : Option (String × Nat)) :
    ∃ (w1 : World M FS F Img) (p1 p2 : List Bool) (oks okl : Bool) (img : Img),
      w1 = lastWorld (Update E
        { w with view := { w.view with
            savingJob := js.map (fun x => { path := x.1, extraFunc := some x.2 })
            loadingJob := jl.map (fun x => { path := x.1, extraFunc := some x.2 }) } }
        t dt) ∧
      w1.calls = w.calls ++ [Call.SetButtons1 p1, Call.SetButtons2 p2] ++
        (match js with
          | some x => [Call.SaveState x.1 oks, Call.go x.2]
          | none => []) ++
        (match jl with
          | some x => [Call.LoadState x.1 okl, Call.go x.2]
          | none => []) ++
        [Call.StepSeconds (if dt > 1 then 0 else dt)] ++
        (match w.view.imageChannel with
          | some ch => [Call.send (some ch) img]
          | none => []) ∧
      (∀ x, js = some x →
        oks = (E.SaveState (updateControllers E w).view.console w.disk x.1).2) ∧
      w1.view.savingJob = none ∧ w1.view.loadingJob = none ∧
      (∀ ch, w.view.imageChannel = some ch →
        Update E
          { w with view := { w.view with
              savingJob := js.map (fun x => { path := x.1, extraFunc := some x.2 })
              loadingJob := jl.map (fun x => { path := x.1, extraFunc := some x.2 }) } }
          t dt = Except.ok w1) := by
  have hret : ∀ ch, w.view.imageChannel = some ch →
      Update E
        { w with view := { w.view with
            savingJob := js.map (fun x => { path := x.1, extraFunc := some x.2 })
            loadingJob := jl.map (fun x => { path := x.1, extraFunc := some x.2 }) } }
        t dt = Except.ok (lastWorld (Update E
        { w with view := { w.view with
            savingJob := js.map (fun x => { path := x.1, extraFunc := some x.2 })
            loadingJob := jl.map (fun x => { path := x.1, extraFunc := some x.2 }) } }
        t dt)) := fun ch h => Update_returns E _ t dt ch h
  obtain ⟨hs, hl, _⟩ := Update_slots E
        { w with view := { w.view with
            savingJob := js.map (fun x => { path := x.1, extraFunc := some x.2 })
            loadingJob := jl.map (fun x => { path := x.1, extraFunc := some x.2 }) } }
        t dt
  rcases js with _ | ⟨p, f⟩ <;> rcases jl with _ | ⟨q, g⟩
  · refine ⟨_, copy (List.replicate 8 false) (w.view.keyPressed.take 8),
      copy (List.replicate 8 false) (w.view.keyPressed.drop 8), true, true,
      E.Buffer (E.StepSeconds (updateControllers E w).view.console (if dt > 1 then 0 else dt)),
      rfl, ?_, by simp, hs, hl, hret⟩
    rw [Update_calls]
    cases w.view.imageChannel <;>
      simp [updateControllers, UpdateEvents, runSavingJob, runLoadingJob, goStmt]
  · refine ⟨_, copy (List.replicate 8 false) (w.view.keyPressed.take 8),
      copy (List.replicate 8 false) (w.view.keyPressed.drop 8), true,
      (E.LoadState (updateControllers E w).view.console w.disk q).2,
      E.Buffer (E.StepSeconds (E.LoadState (updateControllers E w).view.console w.disk q).1
        (if dt > 1 then 0 else dt)),
      rfl, ?_, by simp, hs, hl, hret⟩
    rw [Update_calls]
    cases w.view.imageChannel <;>
      simp [updateControllers, UpdateEvents, runSavingJob, runLoadingJob, goStmt]
  · refine ⟨_, copy (List.replicate 8 false) (w.view.keyPressed.take 8),
      copy (List.replicate 8 false) (w.view.keyPressed.drop 8),
      (E.SaveState (updateControllers E w).view.console w.disk p).2, true,
      E.Buffer (E.StepSeconds (updateControllers E w).view.console (if dt > 1 then 0 else dt)),
      rfl, ?_, ?_, hs, hl, hret⟩
    · rw [Update_calls]
      cases w.view.imageChannel <;>
        simp [updateControllers, UpdateEvents, runSavingJob, runLoadingJob, goStmt]
    · intro x hx
      cases hx
      rfl
  · refine ⟨_, copy (List.replicate 8 false) (w.view.keyPressed.take 8),
      copy (List.replicate 8 false) (w.view.keyPressed.drop 8),
      (E.SaveState (updateControllers E w).view.console w.disk p).2,
      (E.LoadState (updateControllers E w).view.console
        (E.SaveState (updateControllers E w).view.console w.disk p).1 q).2,
      E.Buffer (E.StepSeconds (E.LoadState (updateControllers E w).view.console
        (E.SaveState (updateControllers E w).view.console w.disk p).1 q).1
        (if dt > 1 then 0 else dt)),
      rfl, ?_, ?_, hs, hl, hret⟩
    · rw [Update_calls]
      cases w.view.imageChannel <;>
        simp [updateControllers, UpdateEvents, runSavingJob, runLoadingJob, goStmt]
    · intro x hx
      cases hx
      rfl

/-- C10 (optional extra action), the code on a job without extra action: for
every environment and session, after `Save` with a nil function (no load
pending) the calls of `Update` are the two `SetButtons`, the `SaveState`, the
`go` statement on the nil function, `StepSeconds`, and the send when the image
channel is not nil, and the slot ends empty; so the nil function is launched,
and its call panics in the new goroutine. The same holds for `Load` with a nil
function when no save is pending. In the concrete session the full call list
is given. -/
theorem Update_launches_nil_extraFunc [LT F] [DecidableRel (fun a b : F => a < b)] [Zero F]
    [One F] (E : Env M FS F Img) (w : World M FS F Img) (h : String) (t dt : F) :
    (∃ (p1 p2 : List Bool) (ok : Bool) (sends : List (Call F Img)),
      (lastWorld (Update E
          (Save E { w with view := { w.view with loadingJob := none } } h none) t dt)).calls =
        w.calls ++
          [Call.SetButtons1 p1, Call.SetButtons2 p2,
           Call.SaveState (E.savePath w.view.hash) ok, Call.goNil,
           Call.StepSeconds (if dt > 1 then 0 else dt)] ++ sends ∧
      (sends = [] ∨ ∃ ch img, sends = [Call.send ch img]) ∧
      (lastWorld (Update E
          (Save E { w with view := { w.view with loadingJob := none } } h none)
          t dt)).view.savingJob = none) ∧
    (∃ (p1 p2 : List Bool) (ok : Bool) (sends : List (Call F Img)),
      (lastWorld (Update E
          (Load E { w with view := { w.view with savingJob := none } } h none) t dt)).calls =
        w.calls ++
          [Call.SetButtons1 p1, Call.SetButtons2 p2,
           Call.LoadState (E.savePath w.view.hash) ok, Call.goNil,
           Call.StepSeconds (if dt > 1 then 0 else dt)] ++ sends ∧
      (sends = [] ∨ ∃ ch img, sends = [Call.send ch img]) ∧
      (lastWorld (Update E
          (Load E { w with view := { w.view with savingJob := none } } h none)
          t dt)).view.loadingJob = none) ∧
    (Update demoEnv (Save demoEnv (demoWorld emptyDisk) "room" none)
        0 0).toOption.map (fun w => (w.calls, w.view.savingJob)) =
      some ([Call.SetButtons1 (List.replicate 8 false),
        Call.SetButtons2 (List.replicate 8 false),
        Call.SaveState "save/room.dat" true, Call.goNil,
        Call.StepSeconds 0, Call.send (some 0) 1], none) := by
  refine ⟨?_, ?_, by rfl⟩
  · obtain ⟨hs, _, _⟩ := Update_slots E
      (Save E { w with view := { w.view with loadingJob := none } } h none) t dt
    refine ⟨copy (List.replicate 8 false) (w.view.keyPressed.take 8),
      copy (List.replicate 8 false) (w.view.keyPressed.drop 8),
      (E.SaveState (updateControllers E w).view.console w.disk (E.savePath w.view.hash)).2,
      (match w.view.imageChannel with
        | some ch => [Call.send (some ch)
            (E.Buffer (E.StepSeconds (updateControllers E w).view.console
              (if dt > 1 then 0 else dt)))]
        | none => []), ?_, ?_, hs⟩
    · rw [Update_calls]
      cases hc : w.view.imageChannel <;>
        simp [updateControllers, UpdateEvents, runSavingJob, runLoadingJob, goStmt, Save, hc]
    · cases w.view.imageChannel with
      | none => exact Or.inl rfl
      | some ch => exact Or.inr ⟨_, _, rfl⟩
  · obtain ⟨_, hl, _⟩ := Update_slots E
      (Load E { w with view := { w.view with savingJob := none } } h none) t dt
    refine ⟨copy (List.replicate 8 false) (w.view.keyPressed.take 8),
      copy (List.replicate 8 false) (w.view.keyPressed.drop 8),
      (E.LoadState (updateControllers E w).view.console w.disk (E.savePath w.view.hash)).2,
      (match w.view.imageChannel with
        | some ch => [Call.send (some ch)
            (E.Buffer (E.StepSeconds
              (E.LoadState (updateControllers E w).view.console w.disk
                (E.savePath w.view.hash)).1
              (if dt > 1 then 0 else dt)))]
        | none => []), ?_, ?_, hl⟩
    · rw [Update_calls]
      cases hc : w.view.imageChannel <;>
        simp [updateControllers, UpdateEvents, runSavingJob, runLoadingJob, goStmt, Load, hc]
    · cases w.view.imageChannel with
      | none => exact Or.inl rfl
      | some ch => exact Or.inr ⟨_, _, rfl⟩

end claims

end emulator
